import Mathlib

/-!
Verification development for the DiabetesAI repository's logistic-regression
core (`src/utils/mlModel.ts`, embedded below from the source) and its static
pretrained scorer (`src/utils/diabetesModel.ts`).

JavaScript numbers are modelled as real numbers (`ℝ`) wherever continuous
arithmetic happens, and as the four-way domain `JSNum` (finite value,
±Infinity, NaN) where the code's `isNaN` checks and `Number(...)` coercions
are the point.  Counts and metric ratios are modelled over `ℚ` (exact
rationals), where division by zero yields 0, which coincides with the
source's `x || 0` fallback on the 0/0 = NaN case.
-/

/-! ## JS value domain for dataset cells -/

/-- A JavaScript number as produced by `Number(row[col])` in
`trainDiabetesModel`: a finite value, positive or negative Infinity, or NaN. -/
inductive JSNum where
  | fin (q : ℚ)
  | posInf
  | negInf
  | nan
deriving DecidableEq, Repr

/-- Model of JavaScript `isNaN(x)`. -/
def JSNum.isNaN : JSNum → Bool
  | .nan => true
  | _ => false

/-- Model of JavaScript `Number.isFinite(x)`: true exactly on finite numbers. -/
def JSNum.isFiniteNum : JSNum → Bool
  | .fin _ => true
  | _ => false

/-- Model of the JavaScript comparison `x > 0` (false on NaN). -/
def JSNum.gtZero : JSNum → Bool
  | .fin q => decide (0 < q)
  | .posInf => true
  | _ => false

/-- Projection of a `JSNum` into `ℝ`.  ±Infinity and NaN have no real
counterpart and are mapped to 0; every theorem that goes through this
projection depends only on list lengths, never on the projected values of
non-finite cells. -/
noncomputable def JSNum.toR : JSNum → ℝ
  | .fin q => (q : ℝ)
  | _ => 0

/-! ## Feature extraction and row filtering (`trainDiabetesModel`, rows 206-241)

A dataset row is an association list from (already name-resolved) column
names to cell values.  `getCell` models the property access
`Number(row[actualColumn])`: a missing property reads as `undefined`, and
`Number(undefined)` is NaN. -/

/-- Model of `Number(row[c])`: look the column up; absent columns coerce to NaN. -/
def getCell (row : List (String × JSNum)) (c : String) : JSNum :=
  match row.find? (fun p => p.1 == c) with
  | some p => p.2
  | none => .nan

/-- The `featureRow` built by the `features.forEach` loop: one cell per
selected feature, in feature-list order. -/
def buildRow (features : List String) (row : List (String × JSNum)) : List JSNum :=
  features.map (fun f => getCell row f)

/-- The target transform: when the target column is `diabetes012` the source
runs `target = target > 0 ? 1 : 0` (collapsing the tri-state label, and
incidentally turning a NaN target into the number 0); otherwise the raw
target value is kept. -/
def collapseTarget (collapse : Bool) (t : JSNum) : JSNum :=
  if collapse then (if t.gtZero then .fin 1 else .fin 0) else t

/-- The keep/skip decision: the source skips a row when
`isNaN(target) || !isValid`, where `isValid` is cleared as soon as any
selected feature value is NaN. -/
def rowValid (featVals : List JSNum) (target : JSNum) : Bool :=
  featVals.all (fun v => !v.isNaN) && !target.isNaN

/-- Typed errors of the training pipeline (§7 of the spec).  `typeError`
models the untyped JavaScript `TypeError` thrown by `X[0].length` when
`train` receives an empty matrix. -/
inductive TrainError where
  | dimensionError (expected got : ℕ)
  | noDataError
  | configurationError
  | typeError
deriving DecidableEq, Repr

/-- The X/y extraction loop of `trainDiabetesModel` (lines 206-241): build the
feature row and (possibly collapsed) target per dataset row, keep the row only
if it passes `rowValid`, and fail with `NoDataError` ("No valid data found for
training") when nothing survives. -/
def extractXy (features : List String) (targetCol : String) (collapse : Bool)
    (rows : List (List (String × JSNum))) :
    Except TrainError (List (List JSNum) × List JSNum) :=
  let kept := rows.filterMap (fun row =>
    let featureRow := buildRow features row
    let target := collapseTarget collapse (getCell row targetCol)
    if rowValid featureRow target then some (featureRow, target) else none)
  if kept.isEmpty then .error .noDataError
  else .ok (kept.map Prod.fst, kept.map Prod.snd)

/-- The rows `extractXy` keeps, as a plain filter over the input rows. -/
def keptRows (features : List String) (targetCol : String) (collapse : Bool)
    (rows : List (List (String × JSNum))) : List (List (String × JSNum)) :=
  rows.filter (fun row =>
    rowValid (buildRow features row) (collapseTarget collapse (getCell row targetCol)))

/-! ## Train/test split (`trainDiabetesModel`, lines 265-270) -/

/-- Embedding of `Math.floor(X.length * 0.8)` over exact arithmetic (the literal `0.8`
denotes 4/5). -/
def splitIndex (n : ℕ) : ℕ := (⌊(n : ℚ) * 0.8⌋).toNat

/-! ## The `LogisticRegression` class (lines 92-152), embedded over `ℝ` -/

/-- Embedding of `Math.max(lo, Math.min(hi, z))`. -/
def clampR (lo hi z : ℝ) : ℝ := max lo (min hi z)

/-- Embedding of `LogisticRegression.sigmoid`:
`1 / (1 + Math.exp(-Math.max(-250, Math.min(250, z))))`. -/
noncomputable def sigmoid (z : ℝ) : ℝ :=
  1 / (1 + Real.exp (-(clampR (-250) 250 z)))

/-- The mutable state of a `LogisticRegression` instance: its weight vector
and bias. -/
structure LRState where
  weights : List ℝ
  bias : ℝ

/-- The per-row linear score
`row.reduce((sum, val, idx) => sum + val * this.weights[idx], this.bias)`:
a left fold over the pointwise products, started at the bias. -/
noncomputable def rowScore (s : LRState) (row : List ℝ) : ℝ :=
  (List.zipWith (· * ·) row s.weights).foldl (· + ·) s.bias

/-- One iteration of the gradient-descent loop in `train` (lines 115-139):
forward pass, gradient accumulation (`dw[k] = Σ_rows error · X[j][k]`,
`db = Σ_rows error`, the functional reading of the nested `for` loops), and
the parameter update with both gradients divided by `m = X.length`. -/
noncomputable def LRtrainStep (lr : ℝ) (n : ℕ) (X : List (List ℝ)) (y : List ℝ)
    (s : LRState) : LRState :=
  let predictions := X.map (fun row => sigmoid (rowScore s row))
  let errors := List.zipWith (· - ·) predictions y
  let db := errors.sum
  let dw := (List.range n).map
    (fun j => (List.zipWith (fun e row => e * row.getD j 0) errors X).sum)
  { weights := List.zipWith (fun w g => w - lr * g / (X.length : ℝ)) s.weights dw
    bias := s.bias - lr * db / (X.length : ℝ) }

/-- Embedding of `LogisticRegression.train`: read `n = X[0].length`, initialise weights to
`n` zeros and bias to 0, and run the update loop exactly `iterations` times. -/
noncomputable def LRtrain (lr : ℝ) (iterations : ℕ) (X : List (List ℝ))
    (y : List ℝ) : LRState :=
  (LRtrainStep lr (X.headD []).length X y)^[iterations]
    ⟨List.replicate (X.headD []).length 0, 0⟩

/-- Embedding of `LogisticRegression.predictProbability`: the raw sigmoid of the linear
score. -/
noncomputable def predictProbability (s : LRState) (x : List ℝ) : ℝ :=
  sigmoid (rowScore s x)

/-- Embedding of `LogisticRegression.predict`: recompute the probability and threshold it
at 0.5 (`probability >= 0.5 ? 1 : 0`). -/
noncomputable def LRpredict (s : LRState) (x : List ℝ) : ℕ :=
  if sigmoid (rowScore s x) ≥ 0.5 then 1 else 0

/-! ## The gradient-descent algorithm as the spec words it (§4.3)

`specGD` restates the claimed algorithm from the specification text, for
comparison with the source-derived `LRtrain`: weights start as the all-zero
vector of length `k`, the per-row prediction is `sigmoid(dot(row, weights)
+ bias)` with `dot` an explicit sum of products, the weight gradient for
column `j` is the sum over rows of `error · x[j]`, the bias gradient is the
sum of the errors, and each of the exactly `iterations` steps updates
`weights[j] -= lr · gradient[j] / n` and `bias -= lr · biasGradient / n`
(`n` = number of rows). -/

/-- Dot product, per the spec's `dot(row, weights)`. -/
def dotProduct (row w : List ℝ) : ℝ := (List.zipWith (· * ·) row w).sum

/-- One step of the spec's full-batch gradient descent. -/
noncomputable def specGDStep (lr : ℝ) (k : ℕ) (X : List (List ℝ)) (y : List ℝ)
    (s : LRState) : LRState :=
  let predictions := X.map (fun row => sigmoid (dotProduct row s.weights + s.bias))
  let errors := List.zipWith (· - ·) predictions y
  let biasGradient := errors.sum
  let gradient := (List.range k).map
    (fun j => (List.zipWith (fun e row => e * row.getD j 0) errors X).sum)
  { weights := List.zipWith (fun w g => w - lr * g / (X.length : ℝ)) s.weights gradient
    bias := s.bias - lr * biasGradient / (X.length : ℝ) }

/-- The spec's full-batch gradient descent: zero initialisation at feature
count `k`, exactly `iterations` steps, no early stopping. -/
noncomputable def specGD (lr : ℝ) (iterations : ℕ) (k : ℕ) (X : List (List ℝ))
    (y : List ℝ) : LRState :=
  (specGDStep lr k X y)^[iterations] ⟨List.replicate k 0, 0⟩

/-! ## Metrics evaluator (`calculateMetrics`, lines 297-318)

Labels and predictions are modelled over `ℚ`.  In `ℚ`, division by zero is 0,
which matches the source's `x || 0` fallback: the only way those JavaScript
expressions are falsy is the 0/0 = NaN case (or a genuinely zero ratio, where
the fallback is also 0). -/

/-- The four confusion counts, from the exact-equality `else if` chain. -/
def countPairs (a b : ℚ) (yTrue yPred : List ℚ) : ℕ :=
  ((yTrue.zip yPred).filter (fun p => p.1 = a ∧ p.2 = b)).length

structure ModelMetrics where
  accuracy : ℚ
  precision : ℚ
  «recall» : ℚ
  f1Score : ℚ
  confusionMatrix : List (List ℕ)
deriving DecidableEq, Repr

/-- Embedding of `calculateMetrics`: count TP/FP/TN/FN and derive the four ratios and the
`[[tn, fp], [fn, tp]]` confusion matrix.  `precision`, `recall` and `f1Score`
carry the source's `|| 0` guard through `ℚ`'s zero-valued division by zero;
`accuracy` has no guard in the source and is likewise 0/0-safe here only
because `ℚ` makes it so (the source would yield NaN on empty input). -/
def calculateMetrics (yTrue yPred : List ℚ) : ModelMetrics :=
  let tp := countPairs 1 1 yTrue yPred
  let fp := countPairs 0 1 yTrue yPred
  let tn := countPairs 0 0 yTrue yPred
  let fn := countPairs 1 0 yTrue yPred
  { accuracy := (tp + tn : ℚ) / (tp + fp + tn + fn : ℚ)
    precision := (tp : ℚ) / (tp + fp : ℚ)
    «recall» := (tp : ℚ) / (tp + fn : ℚ)
    f1Score :=
      2 * (((tp : ℚ) / (tp + fp : ℚ)) * ((tp : ℚ) / (tp + fn : ℚ))) /
        (((tp : ℚ) / (tp + fp : ℚ)) + ((tp : ℚ) / (tp + fn : ℚ)))
    confusionMatrix := [[tn, fp], [fn, tp]] }

/-! ## Normalizer (`trainDiabetesModel`, lines 246-263) -/

/-- The `|| 1` guard on `Math.sqrt(variance)`: a zero (the only falsy
non-negative real) is replaced by 1. -/
noncomputable def jsOrOne (x : ℝ) : ℝ := if x = 0 then 1 else x

/-- Column `i` of the matrix, as read by `row[i]` inside the mean/variance
loops. -/
noncomputable def column (X : List (List ℝ)) (i : ℕ) : List ℝ :=
  X.map (fun r => r.getD i 0)

/-- Embedding of `means[i] = X.reduce((sum, row) => sum + row[i], 0) / X.length`. -/
noncomputable def colMean (c : List ℝ) : ℝ := c.sum / c.length

/-- Embedding of `variance = X.reduce((sum, row) => sum + pow(row[i] - means[i], 2), 0) / X.length`:
the population variance (denominator `n`). -/
noncomputable def colVariance (c : List ℝ) : ℝ :=
  ((c.map (fun v => (v - colMean c) ^ 2)).sum) / c.length

/-- Embedding of `stds[i] = Math.sqrt(variance) || 1`. -/
noncomputable def colStd (c : List ℝ) : ℝ := jsOrOne (Real.sqrt (colVariance c))

/-- The per-value normalisation `stds[idx] === 0 ? 0 : (val - means[idx]) / stds[idx]`
applied down one column. -/
noncomputable def normalizeColumn (c : List ℝ) : List ℝ :=
  c.map (fun v => if colStd c = 0 then 0 else (v - colMean c) / colStd c)

/-- The per-column means of the first `k` columns
(`for i < features.length`). -/
noncomputable def colMeans (k : ℕ) (X : List (List ℝ)) : List ℝ :=
  (List.range k).map (fun i => colMean (column X i))

/-- The per-column standard deviations of the first `k` columns. -/
noncomputable def colStds (k : ℕ) (X : List (List ℝ)) : List ℝ :=
  (List.range k).map (fun i => colStd (column X i))

/-- Embedding of `XNormalized = X.map(row => row.map((val, idx) => stds[idx] === 0 ? 0 :
(val - means[idx]) / stds[idx]))`. -/
noncomputable def normalizeMatrix (means stds : List ℝ) (X : List (List ℝ)) :
    List (List ℝ) :=
  X.map (fun row => row.mapIdx (fun idx val =>
    if stds.getD idx 0 = 0 then 0 else (val - means.getD idx 0) / stds.getD idx 0))

/-! ## The training pipeline (`trainDiabetesModel`, lines 154-295)

The column-name detection and mapping (lines 157-200) resolve a feature-name
list, a target-column name and whether the `diabetes012` collapse applies;
those resolved values are the parameters here.  The source's returned model
closes over the fitted `LogisticRegression` instance and the normalisation
arrays; `TrainedModel` records that closure state directly (the source also
attaches a metrics snapshot, modelled separately by `calculateMetrics`). -/

structure TrainedModel where
  weights : List ℝ
  bias : ℝ
  means : List ℝ
  stds : List ℝ
  features : List String
  targetColumn : String

/-- Embedding of `trainDiabetesModel` after name resolution: extract and filter rows,
normalise, split 80/20, and fit.  When the training slice is empty (exactly
one valid row, so `splitIndex` is 0) the source crashes inside `train` with a
`TypeError` on `X[0].length`; that crash is the `typeError` case. -/
noncomputable def trainDiabetesModelE (features : List String) (targetCol : String)
    (collapse : Bool) (rows : List (List (String × JSNum))) :
    Except TrainError TrainedModel :=
  match extractXy features targetCol collapse rows with
  | .error e => .error e
  | .ok (Xjs, yjs) =>
    let X : List (List ℝ) := Xjs.map (fun r => r.map JSNum.toR)
    let y : List ℝ := yjs.map JSNum.toR
    let means := colMeans features.length X
    let stds := colStds features.length X
    let XNorm := normalizeMatrix means stds X
    let si := splitIndex X.length
    let XTrain := XNorm.take si
    let yTrain := y.take si
    if XTrain.isEmpty then .error .typeError
    else
      let st := LRtrain (1/100) 1000 XTrain yTrain
      .ok { weights := st.weights, bias := st.bias, means := means, stds := stds
            features := features, targetColumn := targetCol }

/-- The returned model's `predict` closure (lines 282-290): reject inputs
whose length differs from the feature count with a `DimensionError`
(`throw new Error("Expected k features, got m")`), otherwise normalise with
the stored means/stds and run the fitted predictor. -/
noncomputable def modelPredictChecked (m : TrainedModel) (input : List ℝ) :
    Except TrainError ℕ :=
  if input.length ≠ m.features.length then
    .error (.dimensionError m.features.length input.length)
  else
    let normalizedInput := List.zipWith
      (fun v p => if p.2 = 0 then 0 else (v - p.1) / p.2) input (m.means.zip m.stds)
    .ok (LRpredict ⟨m.weights, m.bias⟩ normalizedInput)

/-! ## Static pretrained scorer (`predictDiabetes`, `src/utils/diabetesModel.ts`)

The eight inputs are JS numbers, modelled over `ℝ`.  JavaScript `x || d`
substitutes `d` for any falsy `x`; over the reals the falsy numbers collapse
to the single value 0 (NaN, the other falsy number, lies outside `ℝ` but
takes the same branch in the source). -/

/-- Model of the JavaScript default `x || d` for real-valued `x`. -/
noncomputable def jsOrD (x d : ℝ) : ℝ := if x = 0 then d else x

structure DiabetesInput where
  pregnancies : ℝ
  glucose : ℝ
  bloodpressure : ℝ
  skinthickness : ℝ
  insulin : ℝ
  bmi : ℝ
  diabetespedigreefunction : ℝ
  age : ℝ

/-- The `cleanedInput` block (lines 90-100): default falsy fields to the
fixed fallback constants, then floor at 0 (bmi at 10, age at 18). -/
noncomputable def cleanInput (i : DiabetesInput) : DiabetesInput :=
  { pregnancies := max 0 (jsOrD i.pregnancies 0)
    glucose := max 0 (jsOrD i.glucose 100)
    bloodpressure := max 0 (jsOrD i.bloodpressure 70)
    skinthickness := max 0 (jsOrD i.skinthickness 20)
    insulin := max 0 (jsOrD i.insulin 80)
    bmi := max 10 (jsOrD i.bmi 25)
    diabetespedigreefunction := max 0 (jsOrD i.diabetespedigreefunction 0.5)
    age := max 18 (jsOrD i.age 30) }

/-- Embedding of `normalizeValue` of the static scorer: guard against a zero
`std` (never hit: the baked-in constants are nonzero), else z-score. -/
noncomputable def normalizeValue (v mean std : ℝ) : ℝ :=
  if std = 0 then 0 else (v - mean) / std

/-- The linear score `z` of `predictDiabetes` (lines 116-130): each normalised
feature times its baked-in weight, plus the three engineered interaction terms
from `engineerFeatures` — `(glucose/100)·(bmi/30)`, `(age/30)·(pregnancies/5)`,
and `(insulin/100)·(glucose/100)` when `insulin > 0` else 0 — times their
fixed coefficients, plus the bias −4.1.  Applied to the cleaned input. -/
noncomputable def staticScore (c : DiabetesInput) : ℝ :=
  normalizeValue c.pregnancies 3.845 3.369 * 0.42 +
  normalizeValue c.glucose 120.894 31.972 * 1.24 +
  normalizeValue c.bloodpressure 69.105 19.355 * 0.18 +
  normalizeValue c.skinthickness 20.536 15.952 * 0.08 +
  normalizeValue c.insulin 79.799 115.244 * 0.35 +
  normalizeValue c.bmi 31.992 7.884 * 0.89 +
  normalizeValue c.diabetespedigreefunction 0.472 0.331 * 0.67 +
  normalizeValue c.age 33.241 11.760 * 0.52 +
  ((c.glucose / 100) * (c.bmi / 30)) * 0.15 +
  ((c.age / 30) * (c.pregnancies / 5)) * 0.08 +
  (if c.insulin > 0 then (c.insulin / 100) * (c.glucose / 100) else 0) * 0.12 +
  (-4.1)

/-- Embedding of the static scorer's sigmoid, clamped at ±500 (line 42-46). -/
noncomputable def staticSigmoid (z : ℝ) : ℝ :=
  1 / (1 + Real.exp (-(clampR (-500) 500 z)))

inductive Risk where
  | low
  | high
deriving DecidableEq, Repr

structure PredictOutput where
  prediction : ℕ
  probability : ℝ
  risk : Risk
  confidence : ℝ

/-- Embedding of `predictDiabetes` (lines 79-148): clean the input, score,
squash through the sigmoid, threshold at 0.5, and derive risk and the clamped
confidence `min(0.95, max(0.6, |probability − 0.5| · 2))`. -/
noncomputable def predictDiabetes (input : DiabetesInput) : PredictOutput :=
  let c := cleanInput input
  let probability := staticSigmoid (staticScore c)
  let prediction : ℕ := if probability ≥ 0.5 then 1 else 0
  { prediction := prediction
    probability := probability
    risk := if prediction = 1 then .high else .low
    confidence := min 0.95 (max 0.6 (|probability - 0.5| * 2)) }

/-! ## Spec-side metric formulas (§4.4), for comparison with `calculateMetrics` -/

/-- Spec wording: accuracy = (TP+TN)/(TP+FP+TN+FN). -/
def specAccuracy (tp fp tn fn : ℕ) : ℚ := ((tp : ℚ) + tn) / ((tp : ℚ) + fp + tn + fn)

/-- Spec wording: precision = TP/(TP+FP), 0 when the denominator is 0. -/
def specPrecision (tp fp : ℕ) : ℚ := if tp + fp = 0 then 0 else (tp : ℚ) / ((tp : ℚ) + fp)

/-- Spec wording: recall = TP/(TP+FN), 0 when the denominator is 0. -/
def specRecall (tp fn : ℕ) : ℚ := if tp + fn = 0 then 0 else (tp : ℚ) / ((tp : ℚ) + fn)

/-- Spec wording: F1 = 2·precision·recall/(precision+recall), 0 when the
denominator is 0. -/
def specF1 (p r : ℚ) : ℚ := if p + r = 0 then 0 else 2 * p * r / (p + r)

/-! ## Theorems -/

/-! Helper lemmas -/

lemma filterMap_if_eq_filter_map {α β : Type} (p : α → Bool) (g : α → β)
    (l : List α) :
    (l.filterMap (fun a => if p a then some (g a) else none)) =
      (l.filter p).map g := by
  induction l with
  | nil => rfl
  | cons a t ih =>
    by_cases h : p a
    · simp [List.filterMap_cons, List.filter_cons, h, ih]
    · simp [List.filterMap_cons, List.filter_cons, h, ih]

lemma splitIndex_le (n : ℕ) : splitIndex n ≤ n := by
  unfold splitIndex
  have h1 : ((n : ℚ) * 0.8) ≤ (n : ℚ) := by
    have hn : (0 : ℚ) ≤ (n : ℚ) := by positivity
    nlinarith
  have h2 : (⌊(n : ℚ) * 0.8⌋ : ℤ) ≤ ⌊(n : ℚ)⌋ := Int.floor_le_floor h1
  have h3 : (⌊(n : ℚ)⌋ : ℤ) = (n : ℤ) := Int.floor_natCast n
  omega

lemma foldl_add_eq_sum_add (l : List ℝ) (b : ℝ) :
    l.foldl (· + ·) b = l.sum + b := by
  induction l generalizing b with
  | nil => simp
  | cons a t ih => simp [List.foldl_cons, ih (b + a)]; ring

/-- C4: the train/test split of `trainDiabetesModel` is deterministic and
order-preserving — the training partition is exactly the first
⌊0.8·n⌋ rows of X/y in presented order (`List.take`), the holdout partition
is the remaining n − ⌊0.8·n⌋ rows (`List.drop`), the partitions occupy
disjoint index ranges, and their in-order concatenation reproduces the
original rows; no shuffling occurs. -/
theorem split_invariant (X : List (List ℝ)) (y : List ℝ)
    (hy : y.length = X.length) :
    (X.take (splitIndex X.length)).length = splitIndex X.length ∧
    (y.take (splitIndex X.length)).length = splitIndex X.length ∧
    (X.drop (splitIndex X.length)).length = X.length - splitIndex X.length ∧
    (y.drop (splitIndex X.length)).length = X.length - splitIndex X.length ∧
    X.take (splitIndex X.length) ++ X.drop (splitIndex X.length) = X ∧
    y.take (splitIndex X.length) ++ y.drop (splitIndex X.length) = y := by
  have h := splitIndex_le X.length
  refine ⟨?_, ?_, ?_, ?_, List.take_append_drop _ _, List.take_append_drop _ _⟩
  · rw [List.length_take]; omega
  · rw [List.length_take]; omega
  · rw [List.length_drop]
  · rw [List.length_drop]; omega

/-- Witness for C4 at a concrete five-row dataset. -/
theorem split_invariant_witness :
    ([0, 1, 0, 1, 0] : List ℝ).length = ([[1], [2], [3], [4], [5]] : List (List ℝ)).length ∧
    (([[1], [2], [3], [4], [5]] : List (List ℝ)).take (splitIndex 5)).length = splitIndex 5 ∧
    (([0, 1, 0, 1, 0] : List ℝ).take (splitIndex 5)).length = splitIndex 5 ∧
    (([[1], [2], [3], [4], [5]] : List (List ℝ)).drop (splitIndex 5)).length = 5 - splitIndex 5 ∧
    (([0, 1, 0, 1, 0] : List ℝ).drop (splitIndex 5)).length = 5 - splitIndex 5 ∧
    ([[1], [2], [3], [4], [5]] : List (List ℝ)).take (splitIndex 5) ++
      ([[1], [2], [3], [4], [5]] : List (List ℝ)).drop (splitIndex 5) = [[1], [2], [3], [4], [5]] ∧
    ([0, 1, 0, 1, 0] : List ℝ).take (splitIndex 5) ++
      ([0, 1, 0, 1, 0] : List ℝ).drop (splitIndex 5) = [0, 1, 0, 1, 0] :=
  ⟨rfl, split_invariant [[1], [2], [3], [4], [5]] [0, 1, 0, 1, 0] rfl⟩

/-- C5 (amended): the returned model's `predict` closure raises a
`DimensionError` whenever the supplied feature vector's length differs from
the model's feature count. -/
theorem predict_dimension_error (m : TrainedModel) (input : List ℝ)
    (h : input.length ≠ m.features.length) :
    modelPredictChecked m input =
      .error (.dimensionError m.features.length input.length) := by
  unfold modelPredictChecked
  rw [if_pos h]

/-- Witness for C5: a length-1 vector against a 2-feature model errors. -/
theorem predict_dimension_error_witness :
    ([(5 : ℝ)].length ≠ (["a", "b"] : List String).length) ∧
    modelPredictChecked ⟨[0, 0], 0, [0, 0], [1, 1], ["a", "b"], "t"⟩ [(5 : ℝ)] =
      .error (.dimensionError 2 1) :=
  ⟨by decide, predict_dimension_error ⟨[0, 0], 0, [0, 0], [1, 1], ["a", "b"], "t"⟩ [(5 : ℝ)] (by decide)⟩

/-- C5 (counterexample to the claim as stated): `LogisticRegression.train`
contains no dimension check and no failure path at all — on a matrix whose
second row's length (1) differs from the feature count `n = X[0].length = 2`
it runs to completion and returns an ordinary state (here with 0 iterations,
where the embedding coincides exactly with the JavaScript run), rather than
failing with a `DimensionError` as the claim asserts. -/
theorem train_dimension_counterexample :
    LRtrain (1/100) 0 [[1, 2], [3]] [0, 1] = ⟨[0, 0], 0⟩ := rfl

/-- C8: the trainer's sigmoid computes `1 / (1 + exp(−z))` after clamping z
to [−250, 250]: inside the band the clamp is the identity and the result
equals the unclamped sigmoid; for every real z the exponentiated magnitude is
bounded by `exp 250` (no overflow) and the result lies in [0, 1] — in this
real-valued model every value is finite, so the bounds are the embedded
reading of "never infinite or NaN". -/
theorem sigmoid_clamp_props (z : ℝ) :
    (-250 ≤ z → z ≤ 250 → sigmoid z = 1 / (1 + Real.exp (-z))) ∧
    Real.exp (-(clampR (-250) 250 z)) ≤ Real.exp 250 ∧
    0 ≤ sigmoid z ∧ sigmoid z ≤ 1 := by
  constructor
  · intro h1 h2
    unfold sigmoid clampR
    rw [min_eq_right h2, max_eq_right h1]
  refine ⟨?_, ?_, ?_⟩
  · apply Real.exp_le_exp.mpr
    have h : (-250 : ℝ) ≤ clampR (-250) 250 z := le_max_left _ _
    linarith
  · unfold sigmoid
    positivity
  · unfold sigmoid
    rw [div_le_one (by positivity)]
    have h := Real.exp_pos (-(clampR (-250) 250 z))
    linarith

/-- Witness for C8 at z = 0 (inside the clamp band). -/
theorem sigmoid_clamp_props_witness :
    ((-250 : ℝ) ≤ 0 ∧ (0 : ℝ) ≤ 250) ∧ sigmoid 0 = 1 / (1 + Real.exp (-0)) ∧
    0 ≤ sigmoid 0 ∧ sigmoid 0 ≤ 1 :=
  ⟨⟨by norm_num, by norm_num⟩, (sigmoid_clamp_props 0).1 (by norm_num) (by norm_num),
   (sigmoid_clamp_props 0).2.2.1, (sigmoid_clamp_props 0).2.2.2⟩

/-- C1: `LogisticRegression.train` implements exactly the specified
full-batch gradient descent — for every feature matrix X with rows of length
k (and nonempty, so the source's `X[0].length` is defined) and every label
vector y, weights start as the all-zero vector of length k and bias at 0, and
each of the exactly `iterations` steps (no early stopping) computes per-row
predictions `sigmoid(dot(row, weights) + bias)`, per-row errors
prediction − label, weight gradients `Σ(error·x[j])`, bias gradient
`Σ error`, and the updates `weights[j] -= lr·gradient[j]/n`,
`bias -= lr·biasGradient/n` — i.e. the source-derived `LRtrain` coincides
with the spec-worded `specGD`. -/
theorem train_implements_spec (lr : ℝ) (iterations : ℕ) (k : ℕ)
    (X : List (List ℝ)) (y : List ℝ) (hX : X ≠ [])
    (hrows : ∀ row ∈ X, row.length = k) :
    LRtrain lr iterations X y = specGD lr iterations k X y := by
  have hn : (X.headD []).length = k := by
    cases X with
    | nil => exact absurd rfl hX
    | cons r t => exact hrows r (List.mem_cons_self r t)
  have hstep : LRtrainStep lr k X y = specGDStep lr k X y := by
    funext s
    unfold LRtrainStep specGDStep rowScore dotProduct
    simp only [foldl_add_eq_sum_add]
  unfold LRtrain specGD
  rw [hn, hstep]

/-- Witness for C1 on a concrete one-row, one-feature training set. -/
theorem train_implements_spec_witness :
    (([[1]] : List (List ℝ)) ≠ [] ∧ ∀ row ∈ ([[1]] : List (List ℝ)), row.length = 1) ∧
    LRtrain 1 1 [[1]] [1] = specGD 1 1 1 [[1]] [1] :=
  ⟨⟨by simp, by simp⟩, train_implements_spec 1 1 1 [[1]] [1] (by simp) (by simp)⟩

/-- C6 (counterexample to the claim as stated): "dropped iff not
finite-numeric" fails in both directions beyond NaN — a row whose glucose
cell is Infinity (not finite-numeric, e.g. a CSV cell `"Infinity"`, which the
upstream parser leaves as text and `Number(...)` coerces to Infinity) passes
the filter and is kept verbatim; and in the `diabetes012` path a row whose
target is NaN is kept with the target silently imputed to 0 by
`target = target > 0 ? 1 : 0`. -/
theorem row_filter_counterexample :
    JSNum.posInf.isFiniteNum = false ∧
    extractXy ["glucose"] "outcome" false
      [[("glucose", JSNum.posInf), ("outcome", JSNum.fin 1)]] =
      .ok ([[JSNum.posInf]], [JSNum.fin 1]) ∧
    JSNum.nan.isFiniteNum = false ∧
    extractXy ["glucose"] "diabetes012" true
      [[("glucose", JSNum.fin 100), ("diabetes012", JSNum.nan)]] =
      .ok ([[JSNum.fin 100]], [JSNum.fin 0]) :=
  ⟨rfl, rfl, rfl, rfl⟩

/-- C6 (amended): a row is dropped iff some selected feature value or the
(possibly `diabetes012`-collapsed) target value is NaN — so infinite values
pass the filter, and in the collapse path a NaN target is imputed to 0
rather than dropped; kept rows carry their feature values through unchanged;
and extraction fails with `NoDataError` exactly when zero rows survive. -/
theorem row_filtering_amended (features : List String) (targetCol : String)
    (collapse : Bool) (rows : List (List (String × JSNum))) :
    (extractXy features targetCol collapse rows = .error .noDataError ↔
      keptRows features targetCol collapse rows = []) ∧
    (∀ X y, extractXy features targetCol collapse rows = .ok (X, y) →
      X = (keptRows features targetCol collapse rows).map (buildRow features) ∧
      y = (keptRows features targetCol collapse rows).map
            (fun row => collapseTarget collapse (getCell row targetCol))) ∧
    (∀ (fv : List JSNum) (t : JSNum), rowValid fv t = true ↔
      ((∀ v ∈ fv, v.isNaN = false) ∧ t.isNaN = false)) ∧
    collapseTarget true .nan = .fin 0 := by
  have hk : rows.filterMap (fun row =>
      if rowValid (buildRow features row) (collapseTarget collapse (getCell row targetCol))
      then some (buildRow features row, collapseTarget collapse (getCell row targetCol))
      else none) =
      (keptRows features targetCol collapse rows).map (fun row =>
        (buildRow features row, collapseTarget collapse (getCell row targetCol))) := by
    unfold keptRows
    exact filterMap_if_eq_filter_map _ _ rows
  refine ⟨?_, ?_, ?_, rfl⟩
  · by_cases h : keptRows features targetCol collapse rows = []
    · simp [extractXy, hk, h]
    · simp [extractXy, hk, h]
  · intro X y h
    unfold extractXy at h
    rw [hk] at h
    by_cases hemp : keptRows features targetCol collapse rows = []
    · simp [hemp] at h
    · simp [hemp] at h
      obtain ⟨hX, hy⟩ := h
      constructor
      · rw [← hX]
        rfl
      · rw [← hy]
        rfl
  · intro fv t
    simp [rowValid, List.all_eq_true, Bool.not_eq_true']

/-- Witness for C6 (amended) on a concrete one-row dataset. -/
theorem row_filtering_amended_witness :
    ([[JSNum.fin 1]] : List (List JSNum)) =
      (keptRows ["a"] "t" false [[("a", JSNum.fin 1), ("t", JSNum.fin 0)]]).map
        (buildRow ["a"]) ∧
    ([JSNum.fin 0] : List JSNum) =
      (keptRows ["a"] "t" false [[("a", JSNum.fin 1), ("t", JSNum.fin 0)]]).map
        (fun row => collapseTarget false (getCell row "t")) :=
  (row_filtering_amended ["a"] "t" false [[("a", JSNum.fin 1), ("t", JSNum.fin 0)]]).2.1
    [[JSNum.fin 1]] [JSNum.fin 0] rfl

lemma div_count_if (a b : ℕ) :
    (a : ℚ) / ((a : ℚ) + b) = if a + b = 0 then 0 else (a : ℚ) / ((a : ℚ) + b) := by
  by_cases h : a + b = 0
  · obtain ⟨h1, h2⟩ := Nat.add_eq_zero.mp h
    simp [h, h1, h2]
  · rw [if_neg h]

lemma specPrecision_nonneg (a b : ℕ) : 0 ≤ specPrecision a b := by
  unfold specPrecision
  by_cases h : a + b = 0
  · simp [h]
  · rw [if_neg h]
    positivity

lemma specRecall_nonneg (a b : ℕ) : 0 ≤ specRecall a b := by
  unfold specRecall
  by_cases h : a + b = 0
  · simp [h]
  · rw [if_neg h]
    positivity

lemma specF1_eq (p r : ℚ) (hp : 0 ≤ p) (hr : 0 ≤ r) :
    2 * (p * r) / (p + r) = specF1 p r := by
  unfold specF1
  by_cases h : p + r = 0
  · have h1 : p = 0 := by linarith
    rw [if_pos h, h1]
    simp
  · rw [if_neg h, mul_assoc]

/-- C3: on equal-length {0,1}-valued label/prediction arrays,
`calculateMetrics` returns exactly the spec's accuracy, precision, recall and
F1 formulas (with the 0-denominator defaults) and the `[[TN, FP], [FN, TP]]`
confusion matrix; on [1,1,1]/[1,1,1] it returns all-ones metrics with
confusion [[0,0],[0,3]], and on [0,0]/[1,1] all-zero metrics with confusion
[[0,2],[0,0]] — both all-one-class inputs evaluated without any failure. -/
theorem metrics_evaluator (yTrue yPred : List ℚ)
    (hlen : yTrue.length = yPred.length)
    (hT : ∀ v ∈ yTrue, v = 0 ∨ v = 1) (hP : ∀ v ∈ yPred, v = 0 ∨ v = 1) :
    (calculateMetrics yTrue yPred).accuracy =
      specAccuracy (countPairs 1 1 yTrue yPred) (countPairs 0 1 yTrue yPred)
        (countPairs 0 0 yTrue yPred) (countPairs 1 0 yTrue yPred) ∧
    (calculateMetrics yTrue yPred).precision =
      specPrecision (countPairs 1 1 yTrue yPred) (countPairs 0 1 yTrue yPred) ∧
    (calculateMetrics yTrue yPred).«recall» =
      specRecall (countPairs 1 1 yTrue yPred) (countPairs 1 0 yTrue yPred) ∧
    (calculateMetrics yTrue yPred).f1Score =
      specF1 (specPrecision (countPairs 1 1 yTrue yPred) (countPairs 0 1 yTrue yPred))
        (specRecall (countPairs 1 1 yTrue yPred) (countPairs 1 0 yTrue yPred)) ∧
    (calculateMetrics yTrue yPred).confusionMatrix =
      [[countPairs 0 0 yTrue yPred, countPairs 0 1 yTrue yPred],
       [countPairs 1 0 yTrue yPred, countPairs 1 1 yTrue yPred]] ∧
    calculateMetrics [1, 1, 1] [1, 1, 1] = ⟨1, 1, 1, 1, [[0, 0], [0, 3]]⟩ ∧
    calculateMetrics [0, 0] [1, 1] = ⟨0, 0, 0, 0, [[0, 2], [0, 0]]⟩ := by
  refine ⟨rfl, ?_, ?_, ?_, rfl, ?_, ?_⟩
  · unfold calculateMetrics specPrecision
    exact div_count_if _ _
  · unfold calculateMetrics specRecall
    exact div_count_if _ _
  · show 2 * ((countPairs 1 1 yTrue yPred : ℚ) / (countPairs 1 1 yTrue yPred + countPairs 0 1 yTrue yPred : ℚ) *
        ((countPairs 1 1 yTrue yPred : ℚ) / (countPairs 1 1 yTrue yPred + countPairs 1 0 yTrue yPred : ℚ))) /
        ((countPairs 1 1 yTrue yPred : ℚ) / (countPairs 1 1 yTrue yPred + countPairs 0 1 yTrue yPred : ℚ) +
         (countPairs 1 1 yTrue yPred : ℚ) / (countPairs 1 1 yTrue yPred + countPairs 1 0 yTrue yPred : ℚ)) = _
    rw [div_count_if (countPairs 1 1 yTrue yPred) (countPairs 0 1 yTrue yPred),
        div_count_if (countPairs 1 1 yTrue yPred) (countPairs 1 0 yTrue yPred)]
    exact specF1_eq _ _ (specPrecision_nonneg _ _) (specRecall_nonneg _ _)
  · have h1 : countPairs 1 1 [1,1,1] [1,1,1] = 3 := by decide
    have h2 : countPairs 0 1 [1,1,1] [1,1,1] = 0 := by decide
    have h3 : countPairs 0 0 [1,1,1] [1,1,1] = 0 := by decide
    have h4 : countPairs 1 0 [1,1,1] [1,1,1] = 0 := by decide
    simp [calculateMetrics, h1, h2, h3, h4]
    norm_num
  · have h1 : countPairs 1 1 [0,0] [1,1] = 0 := by decide
    have h2 : countPairs 0 1 [0,0] [1,1] = 2 := by decide
    have h3 : countPairs 0 0 [0,0] [1,1] = 0 := by decide
    have h4 : countPairs 1 0 [0,0] [1,1] = 0 := by decide
    simp [calculateMetrics, h1, h2, h3, h4]

/-- Witness for C3 at labels [1], predictions [0]. -/
theorem metrics_evaluator_witness :
    (([1] : List ℚ).length = ([0] : List ℚ).length ∧
      (∀ v ∈ ([1] : List ℚ), v = 0 ∨ v = 1) ∧
      (∀ v ∈ ([0] : List ℚ), v = 0 ∨ v = 1)) ∧
    (calculateMetrics [1] [0]).accuracy =
      specAccuracy (countPairs 1 1 [1] [0]) (countPairs 0 1 [1] [0])
        (countPairs 0 0 [1] [0]) (countPairs 1 0 [1] [0]) :=
  ⟨⟨rfl, by decide, by decide⟩, (metrics_evaluator [1] [0] rfl (by decide) (by decide)).1⟩

/-! Helper lemmas for the normalizer -/

lemma sum_map_div (c : List ℝ) (f : ℝ → ℝ) (s : ℝ) :
    (c.map (fun v => f v / s)).sum = (c.map f).sum / s := by
  induction c with
  | nil => simp
  | cons a t ih =>
    simp only [List.map_cons, List.sum_cons, ih]
    ring

lemma sum_map_sub_const (c : List ℝ) (m : ℝ) :
    (c.map (fun v => v - m)).sum = c.sum - c.length * m := by
  induction c with
  | nil => simp
  | cons a t ih =>
    simp only [List.map_cons, List.sum_cons, ih, List.length_cons]
    push_cast
    ring

lemma sum_sq_nonneg (c : List ℝ) (m : ℝ) :
    0 ≤ (c.map (fun v => (v - m) ^ 2)).sum := by
  apply List.sum_nonneg
  intro x hx
  obtain ⟨v, hv, rfl⟩ := List.mem_map.mp hx
  positivity

lemma sum_sq_zero (c : List ℝ) (m : ℝ)
    (h : (c.map (fun v => (v - m) ^ 2)).sum = 0) : ∀ v ∈ c, v = m := by
  induction c with
  | nil => simp
  | cons a t ih =>
    simp only [List.map_cons, List.sum_cons] at h
    have h1 : 0 ≤ (a - m) ^ 2 := sq_nonneg _
    have h2 : 0 ≤ (t.map (fun v => (v - m) ^ 2)).sum := sum_sq_nonneg t m
    have ha : (a - m) ^ 2 = 0 := by linarith
    have ht : (t.map (fun v => (v - m) ^ 2)).sum = 0 := by linarith
    intro v hv
    rcases List.mem_cons.mp hv with rfl | hv'
    · have h3 := pow_eq_zero_iff (n := 2) (by norm_num) |>.mp ha
      linarith [h3]
    · exact ih ht v hv'

lemma colVariance_nonneg (c : List ℝ) : 0 ≤ colVariance c := by
  unfold colVariance
  have h1 := sum_sq_nonneg c (colMean c)
  positivity

lemma colStd_ne_zero (c : List ℝ) : colStd c ≠ 0 := by
  unfold colStd jsOrOne
  by_cases h : Real.sqrt (colVariance c) = 0
  · rw [if_pos h]
    norm_num
  · rw [if_neg h]
    exact h

lemma normalizeColumn_eq (c : List ℝ) :
    normalizeColumn c = c.map (fun v => (v - colMean c) / colStd c) := by
  unfold normalizeColumn
  simp [colStd_ne_zero c]

lemma length_cast_ne_zero (c : List ℝ) (hne : c ≠ []) : (c.length : ℝ) ≠ 0 :=
  Nat.cast_ne_zero.mpr (fun h0 => hne (List.length_eq_zero.mp h0))

lemma colVariance_zero (c : List ℝ) (hne : c ≠ [])
    (h : colVariance c = 0) : ∀ v ∈ c, v = colMean c := by
  unfold colVariance at h
  have hn := length_cast_ne_zero c hne
  have hsum : (c.map (fun v => (v - colMean c) ^ 2)).sum = 0 := by
    rcases div_eq_zero_iff.mp h with h1 | h1
    · exact h1
    · exact absurd h1 hn
  exact sum_sq_zero c (colMean c) hsum

lemma sum_const_list (c : List ℝ) (a : ℝ) (h : ∀ v ∈ c, v = a) :
    c.sum = c.length * a := by
  induction c with
  | nil => simp
  | cons x t ih =>
    simp only [List.sum_cons, List.length_cons]
    rw [h x (List.mem_cons_self x t), ih (fun v hv => h v (List.mem_cons_of_mem x hv))]
    push_cast
    ring

lemma colMean_const (c : List ℝ) (hne : c ≠ []) (a : ℝ)
    (h : ∀ v ∈ c, v = a) : colMean c = a := by
  unfold colMean
  rw [sum_const_list c a h]
  have hn := length_cast_ne_zero c hne
  field_simp

lemma normalizeColumn_const (c : List ℝ) (hne : c ≠ []) (a : ℝ)
    (h : ∀ v ∈ c, v = a) : normalizeColumn c = List.replicate c.length 0 := by
  have hm : colMean c = a := colMean_const c hne a h
  rw [normalizeColumn_eq]
  apply List.eq_replicate_iff.mpr
  refine ⟨by simp, ?_⟩
  intro b hb
  obtain ⟨v, hv, rfl⟩ := List.mem_map.mp hb
  rw [h v hv, hm]
  simp

lemma colMean_eq_zero_of_sum (l : List ℝ) (h : l.sum = 0) : colMean l = 0 := by
  unfold colMean
  rw [h, zero_div]

lemma normalized_sum_zero (c : List ℝ) (hne : c ≠ []) :
    (c.map (fun v => (v - colMean c) / colStd c)).sum = 0 := by
  rw [show (fun v => (v - colMean c) / colStd c) =
      (fun v => (fun w => w - colMean c) v / colStd c) from rfl,
    sum_map_div c (fun w => w - colMean c) (colStd c),
    sum_map_sub_const c (colMean c)]
  have hn := length_cast_ne_zero c hne
  have hz : c.sum - (c.length : ℝ) * colMean c = 0 := by
    unfold colMean
    field_simp
  rw [hz, zero_div]

lemma colMean_normalized (c : List ℝ) : colMean (normalizeColumn c) = 0 := by
  rcases eq_or_ne c [] with rfl | hne
  · simp [normalizeColumn, colMean]
  · rw [normalizeColumn_eq]
    exact colMean_eq_zero_of_sum _ (normalized_sum_zero c hne)

lemma colVariance_ne_zero_of_nonconst (c : List ℝ) (hne : c ≠ [])
    (h : ∃ a ∈ c, ∃ b ∈ c, a ≠ b) : colVariance c ≠ 0 := by
  obtain ⟨a, ha, b, hb, hab⟩ := h
  intro h0
  have hall := colVariance_zero c hne h0
  exact hab ((hall a ha).trans (hall b hb).symm)

lemma colStd_eq_sqrt (c : List ℝ) (hvar : colVariance c ≠ 0) :
    colStd c = Real.sqrt (colVariance c) := by
  have h0 : Real.sqrt (colVariance c) ≠ 0 := by
    intro h
    exact hvar ((Real.sqrt_eq_zero (colVariance_nonneg c)).mp h)
  unfold colStd jsOrOne
  rw [if_neg h0]

lemma colVariance_normalized (c : List ℝ) (hne : c ≠ [])
    (hvar : colVariance c ≠ 0) : colVariance (normalizeColumn c) = 1 := by
  have hs2 : colStd c ^ 2 = colVariance c := by
    rw [colStd_eq_sqrt c hvar, Real.sq_sqrt (colVariance_nonneg c)]
  have hsne := colStd_ne_zero c
  have hn := length_cast_ne_zero c hne
  have hS : (c.map (fun v => (v - colMean c) ^ 2)).sum =
      colVariance c * c.length := by
    unfold colVariance
    field_simp
  unfold colVariance
  rw [colMean_normalized c, normalizeColumn_eq]
  simp only [sub_zero, List.map_map, List.length_map, Function.comp_def]
  have hrw : (fun v => ((v - colMean c) / colStd c) ^ 2) =
      (fun v => (fun w => (w - colMean c) ^ 2) v / colStd c ^ 2) := by
    funext v
    rw [div_pow]
  rw [hrw, sum_map_div c (fun w => (w - colMean c) ^ 2) (colStd c ^ 2), hS, hs2]
  field_simp

lemma colStd_normalized (c : List ℝ) (hne : c ≠ [])
    (hvar : colVariance c ≠ 0) : colStd (normalizeColumn c) = 1 := by
  unfold colStd
  rw [colVariance_normalized c hne hvar, Real.sqrt_one]
  unfold jsOrOne
  norm_num

lemma mapIdx_getD (l : List ℝ) (f : ℕ → ℝ → ℝ) (i : ℕ) (hi : i < l.length) :
    (l.mapIdx f).getD i 0 = f i (l.getD i 0) := by
  induction l generalizing f i with
  | nil => simp at hi
  | cons a t ih =>
    rw [List.mapIdx_cons]
    cases i with
    | zero => simp
    | succ j =>
      simp only [List.getD_cons_succ]
      exact ih _ j (by simpa using hi)

lemma range_map_getD (k i : ℕ) (f : ℕ → ℝ) (hik : i < k) :
    (((List.range k).map f).getD i 0) = f i := by
  rw [List.getD_eq_getElem?_getD, List.getElem?_map, List.getElem?_range hik]
  rfl

lemma normalizeMatrix_column (k : ℕ) (X : List (List ℝ)) (i : ℕ) (hik : i < k)
    (hrows : ∀ r ∈ X, r.length = k) :
    column (normalizeMatrix (colMeans k X) (colStds k X) X) i =
      normalizeColumn (column X i) := by
  unfold normalizeMatrix
  unfold column normalizeColumn
  rw [List.map_map, List.map_map]
  apply List.map_congr_left
  intro r hr
  simp only [Function.comp_def]
  rw [mapIdx_getD r _ i (by rw [hrows r hr]; exact hik)]
  unfold colStds colMeans
  rw [range_map_getD k i _ hik, range_map_getD k i _ hik]
  unfold column
  rfl

/-- C7: the normalizer's per-column mean is the arithmetic mean and its
spread is the population standard deviation (denominator n, per `colMean` /
`colVariance`); a computed standard deviation of 0 is stored as 1, so a
constant raw column normalizes to exactly 0 in every row (never an undefined
value); a non-constant column's normalized values have mean exactly 0 and
standard deviation exactly 1 in this real-valued model; and applying
`normalizeMatrix` with the computed per-column means/stds acts column-wise as
`normalizeColumn`. -/
theorem normalizer_properties (c : List ℝ) (hne : c ≠ []) :
    colStd c ≠ 0 ∧
    (Real.sqrt (colVariance c) = 0 → colStd c = 1) ∧
    (∀ a, (∀ v ∈ c, v = a) → normalizeColumn c = List.replicate c.length 0) ∧
    ((∃ a ∈ c, ∃ b ∈ c, a ≠ b) →
      colMean (normalizeColumn c) = 0 ∧ colStd (normalizeColumn c) = 1) ∧
    (∀ (k : ℕ) (X : List (List ℝ)) (i : ℕ), i < k → (∀ r ∈ X, r.length = k) →
      column (normalizeMatrix (colMeans k X) (colStds k X) X) i =
        normalizeColumn (column X i)) := by
  refine ⟨colStd_ne_zero c, ?_, ?_, ?_, ?_⟩
  · intro h
    unfold colStd jsOrOne
    rw [if_pos h]
  · intro a h
    exact normalizeColumn_const c hne a h
  · intro h
    have hvar := colVariance_ne_zero_of_nonconst c hne h
    exact ⟨colMean_normalized c, colStd_normalized c hne hvar⟩
  · intro k X i hik hrows
    exact normalizeMatrix_column k X i hik hrows

/-- Witness for C7 on the non-constant column [1, 3]. -/
theorem normalizer_properties_witness :
    (([1, 3] : List ℝ) ≠ []) ∧
    colMean (normalizeColumn [1, 3]) = 0 ∧ colStd (normalizeColumn [1, 3]) = 1 :=
  ⟨by simp, (normalizer_properties [1, 3] (by simp)).2.2.2.1
    ⟨1, by simp, 3, by simp, by norm_num⟩⟩

/-! Helper lemmas for the pipeline length invariant -/

lemma extractXy_ok_shape (features : List String) (targetCol : String)
    (collapse : Bool) (rows : List (List (String × JSNum)))
    (X : List (List JSNum)) (y : List JSNum)
    (h : extractXy features targetCol collapse rows = .ok (X, y)) :
    ∀ r ∈ X, r.length = features.length := by
  have hk : rows.filterMap (fun row =>
      if rowValid (buildRow features row) (collapseTarget collapse (getCell row targetCol))
      then some (buildRow features row, collapseTarget collapse (getCell row targetCol))
      else none) =
      (keptRows features targetCol collapse rows).map (fun row =>
        (buildRow features row, collapseTarget collapse (getCell row targetCol))) := by
    unfold keptRows
    exact filterMap_if_eq_filter_map _ _ rows
  unfold extractXy at h
  rw [hk] at h
  by_cases hemp : keptRows features targetCol collapse rows = []
  · simp [hemp] at h
  · simp [hemp] at h
    obtain ⟨hX, hy⟩ := h
    intro r hr
    rw [← hX] at hr
    obtain ⟨row, hrow, rfl⟩ := List.mem_map.mp hr
    unfold buildRow
    simp [List.length_map]

lemma length_mapIdx_eq (l : List ℝ) (f : ℕ → ℝ → ℝ) :
    (l.mapIdx f).length = l.length := by
  induction l generalizing f with
  | nil => rfl
  | cons a t ih =>
    rw [List.mapIdx_cons]
    simp [ih]

lemma headD_mem (l : List (List ℝ)) (h : l ≠ []) : l.headD [] ∈ l := by
  cases l with
  | nil => exact absurd rfl h
  | cons a t => simp

lemma LRtrainStep_weights_length (lr : ℝ) (n : ℕ) (X : List (List ℝ))
    (y : List ℝ) (s : LRState) (h : s.weights.length = n) :
    (LRtrainStep lr n X y s).weights.length = n := by
  unfold LRtrainStep
  simp [List.length_zipWith, h, List.length_map, List.length_range]

lemma LRtrain_weights_length (lr : ℝ) (it : ℕ) (X : List (List ℝ))
    (y : List ℝ) : (LRtrain lr it X y).weights.length = (X.headD []).length := by
  unfold LRtrain
  generalize (X.headD []).length = n
  induction it with
  | zero => simp
  | succ m ih =>
    rw [Function.iterate_succ_apply']
    exact LRtrainStep_weights_length _ _ _ _ _ ih

/-- C2: for every model state and feature vector, `predict` returns 1 iff
`predictProbability` is at least 0.5 (else 0); and a model produced by the
training pipeline always has a feature-name list of the same length as its
weight vector. -/
theorem model_round_trip :
    (∀ (s : LRState) (x : List ℝ), LRpredict s x = 1 ↔ predictProbability s x ≥ 0.5) ∧
    (∀ (features : List String) (targetCol : String) (collapse : Bool)
        (rows : List (List (String × JSNum))) (M : TrainedModel),
      trainDiabetesModelE features targetCol collapse rows = .ok M →
      M.features.length = M.weights.length) := by
  constructor
  · intro s x
    unfold LRpredict predictProbability
    by_cases h : sigmoid (rowScore s x) ≥ 0.5
    · simp [h]
    · simp [h]
  · intro features targetCol collapse rows M h
    unfold trainDiabetesModelE at h
    cases hE : extractXy features targetCol collapse rows with
    | error e =>
      rw [hE] at h
      exact absurd h (by simp)
    | ok p =>
      obtain ⟨Xjs, yjs⟩ := p
      rw [hE] at h
      simp only at h
      split at h
      · exact absurd h (by simp)
      · rename_i hemp
        injection h with h'
        rw [← h']
        simp only
        rw [LRtrain_weights_length]
        have hrowsJs := extractXy_ok_shape features targetCol collapse rows Xjs yjs hE
        set X : List (List ℝ) := Xjs.map (fun r => r.map JSNum.toR) with hXdef
        set means := colMeans features.length X with hmeans
        set stds := colStds features.length X with hstds
        set XNorm := normalizeMatrix means stds X with hXNorm
        set si := splitIndex X.length with hsi
        have hXrows : ∀ r ∈ X, r.length = features.length := by
          intro r hr
          rw [hXdef] at hr
          obtain ⟨rj, hrj, rfl⟩ := List.mem_map.mp hr
          rw [List.length_map]
          exact hrowsJs rj hrj
        have hNrows : ∀ r ∈ XNorm, r.length = features.length := by
          intro r hr
          rw [hXNorm] at hr
          unfold normalizeMatrix at hr
          obtain ⟨r0, hr0, rfl⟩ := List.mem_map.mp hr
          rw [length_mapIdx_eq]
          exact hXrows r0 hr0
        have hne : XNorm.take si ≠ [] := by
          intro h0
          rw [h0] at hemp
          exact hemp rfl
        have hmem : (XNorm.take si).headD [] ∈ XNorm :=
          List.take_subset si XNorm (headD_mem _ hne)
        exact (hNrows _ hmem).symm

lemma trainDiabetesModelE_ok_of (features : List String) (targetCol : String)
    (collapse : Bool) (rows : List (List (String × JSNum)))
    (Xjs : List (List JSNum)) (yjs : List JSNum)
    (hE : extractXy features targetCol collapse rows = .ok (Xjs, yjs))
    (hne : ((normalizeMatrix
        (colMeans features.length (Xjs.map (fun r => r.map JSNum.toR)))
        (colStds features.length (Xjs.map (fun r => r.map JSNum.toR)))
        (Xjs.map (fun r => r.map JSNum.toR))).take
          (splitIndex (Xjs.map (fun r => r.map JSNum.toR)).length)).isEmpty = false) :
    ∃ M, trainDiabetesModelE features targetCol collapse rows = .ok M := by
  unfold trainDiabetesModelE
  rw [hE]
  simp only [hne]
  exact ⟨_, rfl⟩

/-- Witness for C2: the predict/probability equivalence at a concrete state,
and the feature/weight length equality on a concrete successful training run
(two valid rows, so the 80/20 split leaves a nonempty training slice). -/
theorem model_round_trip_witness :
    (LRpredict ⟨[1], 0⟩ [3] = 1 ↔ predictProbability ⟨[1], 0⟩ [3] ≥ 0.5) ∧
    (match trainDiabetesModelE ["a"] "t" false
        [[("a", JSNum.fin 1), ("t", JSNum.fin 0)],
         [("a", JSNum.fin 2), ("t", JSNum.fin 1)]] with
     | .ok M => M.features.length = M.weights.length
     | .error _ => False) := by
  constructor
  · exact model_round_trip.1 ⟨[1], 0⟩ [3]
  · have hE : extractXy ["a"] "t" false
        [[("a", JSNum.fin 1), ("t", JSNum.fin 0)],
         [("a", JSNum.fin 2), ("t", JSNum.fin 1)]] =
        .ok ([[JSNum.fin 1], [JSNum.fin 2]], [JSNum.fin 0, JSNum.fin 1]) := rfl
    have hlen : (([[JSNum.fin 1], [JSNum.fin 2]] : List (List JSNum)).map
        (fun r => r.map JSNum.toR)).length = 2 := rfl
    have hsi : splitIndex 2 = 1 := by norm_num [splitIndex]
    have hne : ((normalizeMatrix
        (colMeans (["a"] : List String).length
          (([[JSNum.fin 1], [JSNum.fin 2]] : List (List JSNum)).map (fun r => r.map JSNum.toR)))
        (colStds (["a"] : List String).length
          (([[JSNum.fin 1], [JSNum.fin 2]] : List (List JSNum)).map (fun r => r.map JSNum.toR)))
        (([[JSNum.fin 1], [JSNum.fin 2]] : List (List JSNum)).map (fun r => r.map JSNum.toR))).take
          (splitIndex (([[JSNum.fin 1], [JSNum.fin 2]] : List (List JSNum)).map
            (fun r => r.map JSNum.toR)).length)).isEmpty = false := by
      rw [hlen, hsi]
      unfold normalizeMatrix
      simp
    obtain ⟨M, hM⟩ := trainDiabetesModelE_ok_of ["a"] "t" false
      [[("a", JSNum.fin 1), ("t", JSNum.fin 0)],
       [("a", JSNum.fin 2), ("t", JSNum.fin 1)]]
      [[JSNum.fin 1], [JSNum.fin 2]] [JSNum.fin 0, JSNum.fin 1] hE hne
    rw [hM]
    exact model_round_trip.2 ["a"] "t" false
      [[("a", JSNum.fin 1), ("t", JSNum.fin 0)],
       [("a", JSNum.fin 2), ("t", JSNum.fin 1)]] M hM

lemma staticSigmoid_lt_half (z : ℝ) (h1 : -500 ≤ z) (h2 : z < 0) :
    staticSigmoid z < 1/2 := by
  unfold staticSigmoid clampR
  rw [min_eq_right (by linarith : z ≤ 500), max_eq_right h1]
  have he : 1 < Real.exp (-z) := by
    rw [show (1 : ℝ) = Real.exp 0 from (Real.exp_zero).symm]
    exact Real.exp_lt_exp.mpr (by linarith)
  have hpos : 0 < 1 + Real.exp (-z) := by positivity
  rw [div_lt_div_iff₀ hpos (by norm_num)]
  linarith

/-- C9: on the documented neutral input {pregnancies 1, glucose 120, blood
pressure 80, skin thickness 20, insulin 80, bmi 25, pedigree 0.5, age 30},
the static scorer's fixed weights, bias, normalization constants and the
three interaction terms produce a probability strictly below 0.5, hence
prediction 0 and risk low. -/
theorem static_scorer_low_risk :
    (predictDiabetes ⟨1, 120, 80, 20, 80, 25, 0.5, 30⟩).probability < 0.5 ∧
    (predictDiabetes ⟨1, 120, 80, 20, 80, 25, 0.5, 30⟩).prediction = 0 ∧
    (predictDiabetes ⟨1, 120, 80, 20, 80, 25, 0.5, 30⟩).risk = Risk.low := by
  have hclean : cleanInput ⟨1, 120, 80, 20, 80, 25, 0.5, 30⟩ =
      ⟨1, 120, 80, 20, 80, 25, 0.5, 30⟩ := by
    unfold cleanInput jsOrD
    norm_num
  have hz1 : staticScore ⟨1, 120, 80, 20, 80, 25, 0.5, 30⟩ < 0 := by
    unfold staticScore normalizeValue
    norm_num
  have hz2 : (-500 : ℝ) ≤ staticScore ⟨1, 120, 80, 20, 80, 25, 0.5, 30⟩ := by
    unfold staticScore normalizeValue
    norm_num
  have hp : staticSigmoid (staticScore ⟨1, 120, 80, 20, 80, 25, 0.5, 30⟩) < 1/2 :=
    staticSigmoid_lt_half _ hz2 hz1
  have hnot : ¬(staticSigmoid (staticScore ⟨1, 120, 80, 20, 80, 25, 0.5, 30⟩) ≥ 0.5) := by
    apply not_le.mpr
    linarith [hp]
  refine ⟨?_, ?_, ?_⟩
  · show staticSigmoid (staticScore (cleanInput ⟨1, 120, 80, 20, 80, 25, 0.5, 30⟩)) < 0.5
    rw [hclean]
    linarith [hp]
  · show (if staticSigmoid (staticScore (cleanInput ⟨1, 120, 80, 20, 80, 25, 0.5, 30⟩)) ≥ 0.5
        then 1 else 0) = 0
    rw [hclean, if_neg hnot]
  · show (if (if staticSigmoid (staticScore (cleanInput ⟨1, 120, 80, 20, 80, 25, 0.5, 30⟩)) ≥ 0.5
        then 1 else 0) = 1 then Risk.high else Risk.low) = Risk.low
    rw [hclean, if_neg hnot]
    norm_num

/-- C10: the static scorer is total over (real-valued) numeric inputs and
treats a zero field as missing — a falsy glucose becomes 100, blood pressure
70, skin thickness 20, insulin 80, bmi 25, pedigree 0.5, age 30 (NaN, the
other falsy number, lies outside the real-valued model but takes the same
source branch) — bmi is floored at 10 and age at 18 regardless of input, and
consequently scoring with glucose 0 returns exactly the same output record as
scoring with glucose 100; being a total function, the embedding never
fails. -/
theorem static_scorer_defaults (i : DiabetesInput) :
    ((i.glucose = 0 → (cleanInput i).glucose = 100) ∧
     (i.bloodpressure = 0 → (cleanInput i).bloodpressure = 70) ∧
     (i.skinthickness = 0 → (cleanInput i).skinthickness = 20) ∧
     (i.insulin = 0 → (cleanInput i).insulin = 80) ∧
     (i.bmi = 0 → (cleanInput i).bmi = 25) ∧
     (i.diabetespedigreefunction = 0 → (cleanInput i).diabetespedigreefunction = 0.5) ∧
     (i.age = 0 → (cleanInput i).age = 30)) ∧
    (10 ≤ (cleanInput i).bmi ∧ 18 ≤ (cleanInput i).age) ∧
    predictDiabetes { i with glucose := 0 } = predictDiabetes { i with glucose := 100 } := by
  refine ⟨⟨?_, ?_, ?_, ?_, ?_, ?_, ?_⟩, ⟨le_max_left _ _, le_max_left _ _⟩, ?_⟩
  · intro h
    show max 0 (jsOrD i.glucose 100) = 100
    rw [jsOrD, if_pos h]
    norm_num
  · intro h
    show max 0 (jsOrD i.bloodpressure 70) = 70
    rw [jsOrD, if_pos h]
    norm_num
  · intro h
    show max 0 (jsOrD i.skinthickness 20) = 20
    rw [jsOrD, if_pos h]
    norm_num
  · intro h
    show max 0 (jsOrD i.insulin 80) = 80
    rw [jsOrD, if_pos h]
    norm_num
  · intro h
    show max 10 (jsOrD i.bmi 25) = 25
    rw [jsOrD, if_pos h]
    norm_num
  · intro h
    show max 0 (jsOrD i.diabetespedigreefunction 0.5) = 0.5
    rw [jsOrD, if_pos h]
    norm_num
  · intro h
    show max 18 (jsOrD i.age 30) = 30
    rw [jsOrD, if_pos h]
    norm_num
  · have hc : cleanInput { i with glucose := 0 } = cleanInput { i with glucose := 100 } := by
      unfold cleanInput jsOrD
      norm_num
    unfold predictDiabetes
    rw [hc]

/-- Witness for C10 at a concrete all-default input. -/
theorem static_scorer_defaults_witness :
    ((⟨1, 0, 0, 0, 0, 0, 0, 0⟩ : DiabetesInput).glucose = 0 ∧
      (cleanInput ⟨1, 0, 0, 0, 0, 0, 0, 0⟩).glucose = 100) ∧
    10 ≤ (cleanInput ⟨1, 0, 0, 0, 0, 0, 0, 0⟩).bmi ∧
    predictDiabetes { (⟨1, 0, 0, 0, 0, 0, 0, 0⟩ : DiabetesInput) with glucose := 0 } =
      predictDiabetes { (⟨1, 0, 0, 0, 0, 0, 0, 0⟩ : DiabetesInput) with glucose := 100 } :=
  ⟨⟨rfl, (static_scorer_defaults ⟨1, 0, 0, 0, 0, 0, 0, 0⟩).1.1 rfl⟩,
   (static_scorer_defaults ⟨1, 0, 0, 0, 0, 0, 0, 0⟩).2.1.1,
   (static_scorer_defaults ⟨1, 0, 0, 0, 0, 0, 0, 0⟩).2.2⟩
